import Mathlib

/-!
Verification of the application lifecycle supervisor
(`src/launcher/app_manager.py` together with the pure helpers in
`src/launcher/utils.py` and the data model in `src/launcher/models.py`).

The Python code is embedded shallowly:

* The manager's mutable dictionaries (`app_states`, `processes`,
  `_wsl_ip_cache`) become association lists inside a `ManagerState`
  record, and every operation threads the record explicitly.
* Every external effect (process polling, HTTP GET, TCP connect,
  filesystem existence, `subprocess.Popen`, `wsl.exe` bridge query,
  `urllib.parse`) is an oracle field of a `World` record supplied to
  the operation; the supervisor's own decision logic is transcribed
  from the source.
* Process handles are identified by their PID (`Nat`); `poll` results
  come from the world oracle (`none` = still alive, `some rc` = exited
  with code `rc`), matching `subprocess.Popen.poll`.
* Real time is a `Nat` number of seconds (`time.time()`); the WSL IP
  cache TTL comparison `now - ts < 30` is over `Nat`, which agrees
  with the float comparison at integer instants.
-/

namespace Launcher

/-- Association-list lookup, first match wins (Python dicts have unique
keys, and all operations below preserve that). -/
def alist.lookup {α : Type} (m : List (String × α)) (k : String) : Option α :=
  match m with
  | [] => none
  | (k', v) :: rest => if k' = k then some v else alist.lookup rest k

/-- Association-list update: replace the binding for `k` in place, or
append it (Python `d[k] = v`). -/
def alist.set {α : Type} (m : List (String × α)) (k : String) (v : α) :
    List (String × α) :=
  match m with
  | [] => [(k, v)]
  | (k', v') :: rest =>
    if k' = k then (k, v) :: rest else (k', v') :: alist.set rest k v

/-- Association-list removal (Python `del d[k]` / `d.pop(k, None)`). -/
def alist.erase {α : Type} (m : List (String × α)) (k : String) :
    List (String × α) :=
  match m with
  | [] => []
  | (k', v') :: rest =>
    if k' = k then alist.erase rest k else (k', v') :: alist.erase rest k

theorem alist.lookup_set_self {α : Type} (m : List (String × α)) (k : String) (v : α) :
    alist.lookup (alist.set m k v) k = some v := by
  induction m with
  | nil => simp [alist.set, alist.lookup]
  | cons hd tl ih =>
    obtain ⟨k', v'⟩ := hd
    by_cases h : k' = k <;> simp [alist.set, alist.lookup, h, ih]

theorem alist.lookup_set_ne {α : Type} (m : List (String × α)) (k k' : String) (v : α)
    (h : k ≠ k') : alist.lookup (alist.set m k v) k' = alist.lookup m k' := by
  induction m with
  | nil => simp [alist.set, alist.lookup, h]
  | cons hd tl ih =>
    obtain ⟨k₀, v₀⟩ := hd
    by_cases h₀ : k₀ = k
    · subst h₀
      simp [alist.set, alist.lookup, h]
    · simp [alist.set, alist.lookup, h₀, ih]

theorem alist.lookup_erase_self {α : Type} (m : List (String × α)) (k : String) :
    alist.lookup (alist.erase m k) k = none := by
  induction m with
  | nil => simp [alist.erase, alist.lookup]
  | cons hd tl ih =>
    obtain ⟨k', v'⟩ := hd
    by_cases h : k' = k <;> simp [alist.erase, alist.lookup, h, ih]

theorem alist.lookup_erase_ne {α : Type} (m : List (String × α)) (k k' : String)
    (h : k ≠ k') : alist.lookup (alist.erase m k) k' = alist.lookup m k' := by
  induction m with
  | nil => simp [alist.erase, alist.lookup]
  | cons hd tl ih =>
    obtain ⟨k₀, v₀⟩ := hd
    by_cases h₀ : k₀ = k
    · subst h₀
      simp [alist.erase, alist.lookup, ih, h]
    · simp [alist.erase, alist.lookup, h₀, ih]

/-! ### Data model (`models.py`) -/

/-- `AppStatus` enum from `models.py`. -/
inductive AppStatus where
  | STOPPED
  | STARTING
  | RUNNING
  | ERROR
deriving DecidableEq, Repr

/-- `StartCommand` from `models.py`: command text, shell kind, optional
working-directory override. -/
structure StartCommand where
  cmd : String
  shell : String := "bash"
  cwd : Option String := none
deriving DecidableEq, Repr

/-- `HealthCheck` from `models.py`. -/
structure HealthCheck where
  url : String
  timeout_sec : Nat := 120
deriving DecidableEq, Repr

/-- `AppDefinition` from `models.py`.  The Python field `open` (a list of
`OpenUrl` records each holding one `url`) is flattened to `openUrls :
List String` because `open` is a Lean keyword; `app_manager.py` only
ever reads `[u.url for u in app.open]`. -/
structure AppDefinition where
  id : String
  name : String
  workspace : String
  start : List StartCommand
  health : List HealthCheck
  openUrls : List String
  ports : List Nat := []
deriving DecidableEq, Repr

/-- `AppState` from `models.py`. -/
structure AppState where
  id : String
  name : String
  workspace : String
  status : AppStatus := .STOPPED
  message : Option String := none
  last_check : Option String := none
  ports : List Nat := []
  open_urls : List String := []
deriving DecidableEq, Repr

/-- Result of `urllib.parse.urlparse` as consumed by
`resolve_open_urls`: the six raw components of a `ParseResult` plus the
derived `hostname` / `port` / `username` / `password` properties (the
`hostname` property of `ParseResult` already lowercases; we keep it as
supplied by the parse oracle since the code lowercases again). -/
structure ParsedUrl where
  scheme : String
  netloc : String
  path : String
  params : String
  query : String
  fragment : String
  hostname : Option String
  port : Option Nat
  username : Option String
  password : Option String
deriving DecidableEq, Repr

/-- The mutable runtime storage of `AppManager`: `app_states`,
`processes` (lists of live `Popen` handles, identified by PID) and
`_wsl_ip_cache` (`distro ↦ (ip, epoch seconds)`). -/
structure ManagerState where
  app_states : List (String × AppState) := []
  processes : List (String × List Nat) := []
  wsl_ip_cache : List (String × String × Nat) := []
deriving DecidableEq, Repr

/-- Oracle for everything outside the supervisor's own logic.  Each
field models one external primitive the Python code calls. -/
structure World where
  /-- `Popen.poll()` by PID: `none` = running, `some rc` = exited. -/
  poll : Nat → Option Int
  /-- `aiohttp` GET by URL: `none` = exception, `some s` = HTTP status. -/
  httpGet : String → Option Nat
  /-- `asyncio.open_connection("127.0.0.1", port)` succeeds. -/
  reach4 : Nat → Bool
  /-- `asyncio.open_connection("::1", port)` succeeds. -/
  reach6 : Nat → Bool
  /-- `resolve_workspace_path` (expanduser/expandvars/`Path.resolve`). -/
  resolvePath : String → String
  /-- `Path(p).exists()`. -/
  pathExists : String → Bool
  /-- Outcome of building+spawning start step `i` (`open` of the log
  file plus `subprocess.Popen`): exception text or the new PID. -/
  spawn : Nat → Except String Nat
  /-- `detect_os()`: `"windows"`, `"wsl"` or `"linux"`. -/
  os : String
  /-- `urlparse`: `none` = exception while parsing/inspecting. -/
  parse : String → Option ParsedUrl
  /-- `urlunparse` after `_replace(netloc=...)`. -/
  unparse : ParsedUrl → String
  /-- `_tcp_reachable(host, port)` for the WSL distribution IP. -/
  reach : String → Nat → Bool
  /-- `_windows_listener_process(port)`. -/
  listener : Nat → Option String
  /-- `wsl.exe -d <distro> hostname -I`: `none` = exception/timeout,
  `some out` = captured stdout. -/
  bridgeQuery : String → Option String
  /-- `time.time()` in whole seconds. -/
  now : Nat
  /-- `datetime.now().strftime(...)` / `.isoformat()`. -/
  nowIso : String
  /-- Verdict of the timed `wait_for_health` polling loop inside
  `launch_app` (real time is not embeddable; no claim depends on it). -/
  waitHealthy : Bool

/-! ### Health evaluator (`AppManager.check_health`) -/

/-- One HTTP probe attempt of `check_health`: a response with status
below 500 passes; an exception is non-passing. -/
def httpProbePass (w : World) (h : HealthCheck) : Bool :=
  match w.httpGet h.url with
  | some st => st < 500
  | none => false

/-- The nested `port_reachable` coroutine of `check_health`: the port
passes if either the IPv4 or the IPv6 loopback accepts a connection. -/
def portProbePass (w : World) (port : Nat) : Bool :=
  w.reach4 port || w.reach6 port

/-- `AppManager.check_health` (app_manager.py lines 232-306). -/
def check_health (w : World) (mgr : ManagerState) (app : AppDefinition) : Bool :=
  let has_http_checks := !app.health.isEmpty
  let has_port_checks := !app.ports.isEmpty
  if !has_http_checks && !has_port_checks then
    -- fall back to process liveness
    ((alist.lookup mgr.processes app.id).getD []).any (fun p => (w.poll p).isNone)
  else
    -- try each health check URL (HTTP); first pass short-circuits
    let http_ok := app.health.any (fun h => httpProbePass w h)
    -- if ports are declared, require them all to be reachable
    let ports_ok :=
      if !app.ports.isEmpty then app.ports.all (fun port => portProbePass w port)
      else true
    if has_http_checks && has_port_checks then http_ok && ports_ok
    else if has_http_checks then http_ok
    else ports_ok

/-- C1: `check_health` follows the documented truth table: with neither
HTTP probes nor ports configured it is process liveness (some tracked
handle still alive); otherwise it is the conjunction of "no HTTP probes
or some probe answers with status < 500" and "no ports or every port
accepts a TCP connection on the IPv4 or IPv6 loopback"; in particular
with both kinds configured it is the AND of the two verdicts, and with
only one kind configured only that kind decides. -/
theorem check_health_truth_table (w : World) (mgr : ManagerState) (app : AppDefinition) :
    check_health w mgr app =
      if app.health.isEmpty && app.ports.isEmpty then
        ((alist.lookup mgr.processes app.id).getD []).any (fun p => (w.poll p).isNone)
      else
        (app.health.isEmpty || app.health.any (fun h => httpProbePass w h)) &&
        (app.ports.isEmpty || app.ports.all (fun port => portProbePass w port)) := by
  unfold check_health
  cases hh : app.health with
  | nil =>
    cases hp : app.ports with
    | nil => simp
    | cons p ps => simp
  | cons h hs =>
    cases hp : app.ports with
    | nil => simp
    | cons p ps => simp

/-! ### WSL IP cache (`AppManager._get_wsl_ip`) -/

/-- Python `str.strip()` over the character list (strip leading and
trailing whitespace). -/
def stripChars (s : List Char) : List Char :=
  ((s.dropWhile Char.isWhitespace).reverse.dropWhile Char.isWhitespace).reverse

/-- Python `str.lower()` (the strings involved are ASCII). -/
def strToLower (s : String) : String :=
  String.mk (s.data.map Char.toLower)

/-- Python `str.startswith(p)`. -/
def strStartsWith (s p : String) : Bool :=
  p.data.isPrefixOf s.data

/-- `out = (cp.stdout or "").strip(); ip = out.split()[0] if out else None`
— the first whitespace-separated token of the bridge output, if any. -/
def firstToken (s : String) : Option String :=
  let out := stripChars s.data
  if out.isEmpty then none
  else some (String.mk (out.takeWhile (fun c => !c.isWhitespace)))

/-- The `try` block of `_get_wsl_ip`: run the bridge query, take the
first address of the output, cache it on success.  The final `Bool`
records that the bridge query was invoked. -/
def get_wsl_ip_query (now : Nat) (bridgeQuery : String → Option String)
    (cache : List (String × String × Nat)) (distro : String) :
    Option String × List (String × String × Nat) × Bool :=
  match bridgeQuery distro with
  | none => (none, cache, true)          -- exception / timeout: `return None`
  | some stdout =>
    match firstToken stdout with
    | none => (none, cache, true)        -- empty output: `ip = None`
    | some ip => (some ip, alist.set cache distro (ip, now), true)

/-- `AppManager._get_wsl_ip` (app_manager.py lines 57-84).  Returns the
resolved IP, the updated cache, and whether the bridge query was
invoked. -/
def get_wsl_ip (now : Nat) (bridgeQuery : String → Option String)
    (cache : List (String × String × Nat)) (distro : String)
    (cache_ttl_sec : Nat := 30) :
    Option String × List (String × String × Nat) × Bool :=
  if distro = "" then (none, cache, false)
  else
    match alist.lookup cache distro with
    | some (ip, ts) =>
      if now - ts < cache_ttl_sec then (some ip, cache, false)
      else get_wsl_ip_query now bridgeQuery cache distro
    | none => get_wsl_ip_query now bridgeQuery cache distro

theorem get_wsl_ip_query_invoked (now : Nat) (bridgeQuery : String → Option String)
    (cache : List (String × String × Nat)) (distro : String) :
    (get_wsl_ip_query now bridgeQuery cache distro).2.2 = true := by
  unfold get_wsl_ip_query
  cases bridgeQuery distro with
  | none => rfl
  | some stdout => cases h : firstToken stdout <;> simp [h]

/-- C8: the WSL IP cache respects its 30-second TTL: with an entry
`(ip, t)` stored for a distribution, a call at time `u < t + 30`
returns the cached IP with the cache untouched and without invoking the
bridge query, while a call at time `u ≥ t + 30` invokes the bridge
query. -/
theorem wsl_ip_cache_ttl (bridgeQuery : String → Option String)
    (cache : List (String × String × Nat)) (distro ip : String) (t u : Nat)
    (hd : distro ≠ "") (hc : alist.lookup cache distro = some (ip, t)) :
    (u < t + 30 →
      get_wsl_ip u bridgeQuery cache distro = (some ip, cache, false)) ∧
    (t + 30 ≤ u →
      (get_wsl_ip u bridgeQuery cache distro).2.2 = true) := by
  constructor
  · intro hu
    have hlt : u - t < 30 := by omega
    simp [get_wsl_ip, hd, hc, hlt]
  · intro hu
    have hge : ¬ (u - t < 30) := by omega
    simp [get_wsl_ip, hd, hc, hge, get_wsl_ip_query_invoked]

/-- Witness for C8 at a concrete cache and times 115 (fresh) and 130
(expired). -/
theorem wsl_ip_cache_ttl_witness :
    (115 < 100 + 30 →
      get_wsl_ip 115 (fun _ => some "172.20.0.2") [("Ubuntu", ("172.20.0.5", 100))] "Ubuntu"
        = (some "172.20.0.5", [("Ubuntu", ("172.20.0.5", 100))], false)) ∧
    (100 + 30 ≤ 130 →
      (get_wsl_ip 130 (fun _ => some "172.20.0.2") [("Ubuntu", ("172.20.0.5", 100))] "Ubuntu").2.2
        = true) :=
  ⟨(wsl_ip_cache_ttl (fun _ => some "172.20.0.2") [("Ubuntu", ("172.20.0.5", 100))]
      "Ubuntu" "172.20.0.5" 100 115 (by decide) (by decide)).1,
   (wsl_ip_cache_ttl (fun _ => some "172.20.0.2") [("Ubuntu", ("172.20.0.5", 100))]
      "Ubuntu" "172.20.0.5" 100 130 (by decide) (by decide)).2⟩

/-- C10: a failed bridge query is never cached: when no fresh cache
entry exists for the distribution and the bridge query raises/times out
(`none`) or returns whitespace-only output, `_get_wsl_ip` returns no IP
and the cache is left entirely unchanged (the bridge query having been
invoked), so a later call still finds no fresh entry and re-invokes the
bridge query. -/
theorem wsl_ip_failure_not_cached (now : Nat) (bridgeQuery : String → Option String)
    (cache : List (String × String × Nat)) (distro : String)
    (hd : distro ≠ "")
    (hstale : ∀ ip t, alist.lookup cache distro = some (ip, t) → 30 ≤ now - t)
    (hfail : bridgeQuery distro = none ∨
      ∃ s, bridgeQuery distro = some s ∧ stripChars s.data = []) :
    get_wsl_ip now bridgeQuery cache distro = (none, cache, true) := by
  have hquery : get_wsl_ip_query now bridgeQuery cache distro = (none, cache, true) := by
    rcases hfail with h | ⟨s, hs, htrim⟩
    · simp [get_wsl_ip_query, h]
    · simp [get_wsl_ip_query, hs, firstToken, htrim]
  unfold get_wsl_ip
  rcases hlk : alist.lookup cache distro with _ | ⟨ip, ts⟩
  · simp [hd, hlk, hquery]
  · have := hstale ip ts hlk
    have hge : ¬ (now - ts < 30) := by omega
    simp [hd, hlk, hge, hquery]

/-- Witness for C10: empty cache, bridge query times out. -/
theorem wsl_ip_failure_not_cached_witness :
    get_wsl_ip 50 (fun _ => none) [] "Debian" = (none, [], true) :=
  wsl_ip_failure_not_cached 50 (fun _ => none) [] "Debian" (by decide)
    (by intro ip t h; simp [alist.lookup] at h) (Or.inl rfl)

/-! ### WSL UNC path handling (`utils.py` and
`AppManager._get_wsl_distro_from_workspace`) -/

/-- Case-insensitively consume the literal pattern `pat` from the front
of `s`; return the remaining characters (the regexes in the source all
carry `re.IGNORECASE` and anchor at the start). -/
def ciEatLit : List Char → List Char → Option (List Char)
  | [], s => some s
  | _ :: _, [] => none
  | p :: ps, c :: cs => if p.toLower = c.toLower then ciEatLit ps cs else none

/-- Match `[^\\]+\\`: a nonempty run of non-backslash characters (the
distro name) terminated by a backslash; return the name and the rest. -/
def takeDistro (acc : List Char) : List Char → Option (String × List Char)
  | [] => none
  | c :: cs =>
    if c = '\\' then
      if acc.isEmpty then none else some (String.mk acc.reverse, cs)
    else takeDistro (c :: acc) cs

/-- Match `^<pat>[^\\]+\\` case-insensitively against `s`, returning the
captured distro name and the characters after its trailing backslash. -/
def matchWslUnc (pat : String) (s : String) : Option (String × List Char) :=
  match ciEatLit pat.data s.data with
  | none => none
  | some rest => takeDistro [] rest

/-- `AppManager._get_wsl_distro_from_workspace` (app_manager.py lines
45-55): extract the distro name from `\\wsl.localhost\<distro>\...` or
`\\wsl$\<distro>\...`. -/
def get_wsl_distro_from_workspace (workspace : String) : Option String :=
  if workspace = "" then none
  else
    match matchWslUnc "\\\\wsl.localhost\\" workspace with
    | some (d, _) => some d
    | none =>
      match matchWslUnc "\\\\wsl$\\" workspace with
      | some (d, _) => some d
      | none => none

/-- Turn the captured part of a WSL UNC path into a Linux path:
backslashes become slashes and a leading slash is ensured
(`convert_wsl_network_path_to_linux`, utils.py lines 150-182). -/
def wsl_rest_to_linux (rest : List Char) : String :=
  let lp := rest.map (fun c => if c = '\\' then '/' else c)
  match lp with
  | '/' :: _ => String.mk lp
  | _ => String.mk ('/' :: lp)

/-- `convert_wsl_network_path_to_linux` from `utils.py`. -/
def convert_wsl_network_path_to_linux (path : String) : String :=
  match matchWslUnc "\\\\wsl.localhost\\" path with
  | some (_, rest) => wsl_rest_to_linux rest
  | none =>
    match matchWslUnc "\\\\wsl$\\" path with
    | some (_, rest) => wsl_rest_to_linux rest
    | none => path

/-- A single quote character (used by `get_shell_command`'s
`cd '{cwd}' && {command}` interpolation). -/
def sq : String := String.singleton (Char.ofNat 39)

/-- `get_shell_command` from `utils.py` (lines 99-147).  `detect_os()`
is passed in as `current_os`. -/
def get_shell_command (current_os : String) (shell_type command : String)
    (cwd : Option String) : String × List String :=
  if shell_type = "bash" then
    if current_os = "windows" then
      let command :=
        match cwd with
        | some c => if c ≠ "" then "cd " ++ sq ++ c ++ sq ++ " && " ++ command else command
        | none => command
      ("wsl", ["bash", "-lc", command])
    else ("bash", ["-lc", command])
  else if shell_type = "powershell" then
    if current_os = "windows" then
      ("powershell.exe", ["-NoProfile", "-ExecutionPolicy", "Bypass", "-Command", command])
    else ("pwsh", ["-NoProfile", "-Command", command])
  else if shell_type = "cmd" then
    if current_os = "windows" then ("cmd.exe", ["/c", command])
    else ("bash", ["-c", command])
  else ("bash", ["-lc", command])

/-! ### Cross-environment URL resolver (`AppManager.resolve_open_urls`) -/

/-- `AppManager._is_probably_wsl_proxy` (app_manager.py lines 122-133). -/
def is_probably_wsl_proxy (proc_name : Option String) : Bool :=
  match proc_name with
  | none => false
  | some s =>
    if s = "" then false        -- `if not proc_name` also catches ""
    else
      let n := strToLower s
      n == "wslhost.exe" || n == "wsl.exe" || n == "wslservice.exe" ||
        n == "vmmem" || n == "system" || strStartsWith n "wsl"

/-- The replacement netloc built inside `resolve_open_urls`
(app_manager.py lines 167-173): `ip:port`, prefixed by the preserved
user-info component when the parsed URL carries one. -/
def mk_netloc (ip : String) (port : Nat) (username password : Option String) : String :=
  let netloc := ip ++ ":" ++ toString port
  if (username.getD "") ≠ "" ∨ (password.getD "") ≠ "" then
    let userinfo := (username.getD "") ++
      (if (password.getD "") ≠ "" then ":" ++ (password.getD "") else "")
    userinfo ++ "@" ++ netloc
  else netloc

/-- The per-URL body of `resolve_open_urls`' loop (app_manager.py lines
153-189).  `none` means the URL is suppressed (the Python `continue`
after the warning); `some u` means `u` is appended to the result. -/
def resolve_one_url (w : World) (ip : String) (url : String) : Option String :=
  match w.parse url with
  | none => some url                     -- `except Exception`: pass through unchanged
  | some parsed =>
    if parsed.scheme ≠ "http" ∧ parsed.scheme ≠ "https" then some url
    else
      let hostname := parsed.hostname.getD ""
      match parsed.port with
      | none => some url
      | some port =>
        if (strToLower hostname = "127.0.0.1" ∨ strToLower hostname = "localhost") ∧ port ≠ 0 then
          if w.reach ip port then
            some (w.unparse
              { parsed with netloc := mk_netloc ip port parsed.username parsed.password })
          else
            match w.listener port with
            | some listener =>
              if listener ≠ "" ∧ is_probably_wsl_proxy (some listener) = false then
                none                     -- suppressed, warning logged
              else some url
            | none => some url
        else some url

/-- `AppManager.resolve_open_urls` (app_manager.py lines 135-191).
Returns the URL list and the manager state with the possibly-updated
WSL IP cache. -/
def resolve_open_urls (w : World) (mgr : ManagerState) (app : AppDefinition) :
    List String × ManagerState :=
  let urls := app.openUrls
  match get_wsl_distro_from_workspace app.workspace with
  | none => (urls, mgr)
  | some distro =>
    let r := get_wsl_ip w.now w.bridgeQuery mgr.wsl_ip_cache distro
    let mgr' := { mgr with wsl_ip_cache := r.2.1 }
    match r.1 with
    | none => (urls, mgr')
    | some ip => (urls.filterMap (fun u => resolve_one_url w ip u), mgr')

theorem resolve_open_urls_eq_filterMap (w : World) (mgr : ManagerState)
    (app : AppDefinition) (distro ip : String)
    (hdistro : get_wsl_distro_from_workspace app.workspace = some distro)
    (hip : (get_wsl_ip w.now w.bridgeQuery mgr.wsl_ip_cache distro).1 = some ip) :
    (resolve_open_urls w mgr app).1 =
      app.openUrls.filterMap (fun u => resolve_one_url w ip u) := by
  unfold resolve_open_urls
  rw [hdistro]
  simp only []
  rcases hr : get_wsl_ip w.now w.bridgeQuery mgr.wsl_ip_cache distro with ⟨ipOpt, rest⟩
  rw [hr] at hip
  simp at hip
  subst hip
  simp

theorem resolve_one_url_rewrites (w : World) (ip u : String) (parsed : ParsedUrl) (p : Nat)
    (hparse : w.parse u = some parsed)
    (hscheme : parsed.scheme = "http" ∨ parsed.scheme = "https")
    (hhost : strToLower (parsed.hostname.getD "") = "127.0.0.1" ∨
      strToLower (parsed.hostname.getD "") = "localhost")
    (hport : parsed.port = some p) (hp0 : p ≠ 0)
    (hreach : w.reach ip p = true) :
    resolve_one_url w ip u =
      some (w.unparse
        { parsed with netloc := mk_netloc ip p parsed.username parsed.password }) := by
  have hs : ¬ (parsed.scheme ≠ "http" ∧ parsed.scheme ≠ "https") := by
    rcases hscheme with h | h <;> simp [h]
  unfold resolve_one_url
  rw [hparse]
  simp only [hs, if_false, hport]
  rw [if_pos ⟨hhost, hp0⟩, hreach]
  simp

theorem resolve_one_url_suppresses (w : World) (ip u : String) (parsed : ParsedUrl)
    (p : Nat) (l : String)
    (hparse : w.parse u = some parsed)
    (hscheme : parsed.scheme = "http" ∨ parsed.scheme = "https")
    (hhost : strToLower (parsed.hostname.getD "") = "127.0.0.1" ∨
      strToLower (parsed.hostname.getD "") = "localhost")
    (hport : parsed.port = some p) (hp0 : p ≠ 0)
    (hreach : w.reach ip p = false)
    (hl : w.listener p = some l) (hl0 : l ≠ "")
    (hproxy : is_probably_wsl_proxy (some l) = false) :
    resolve_one_url w ip u = none := by
  have hs : ¬ (parsed.scheme ≠ "http" ∧ parsed.scheme ≠ "https") := by
    rcases hscheme with h | h <;> simp [h]
  unfold resolve_one_url
  rw [hparse]
  simp only [hs, if_false, hport]
  rw [if_pos ⟨hhost, hp0⟩, hreach]
  simp [hl, hl0, hproxy]

theorem resolve_one_url_fallback (w : World) (ip u : String) (parsed : ParsedUrl)
    (p : Nat)
    (hparse : w.parse u = some parsed)
    (hscheme : parsed.scheme = "http" ∨ parsed.scheme = "https")
    (hhost : strToLower (parsed.hostname.getD "") = "127.0.0.1" ∨
      strToLower (parsed.hostname.getD "") = "localhost")
    (hport : parsed.port = some p) (hp0 : p ≠ 0)
    (hreach : w.reach ip p = false)
    (hl : ∀ l, w.listener p = some l → l = "" ∨ is_probably_wsl_proxy (some l) = true) :
    resolve_one_url w ip u = some u := by
  have hs : ¬ (parsed.scheme ≠ "http" ∧ parsed.scheme ≠ "https") := by
    rcases hscheme with h | h <;> simp [h]
  unfold resolve_one_url
  rw [hparse]
  simp only [hs, if_false, hport]
  rw [if_pos ⟨hhost, hp0⟩, hreach]
  rcases hls : w.listener p with _ | l
  · simp
  · rcases hl l hls with h0 | hp
    · simp [h0]
    · simp [hp]

theorem resolve_one_url_pass_through (w : World) (ip u : String)
    (h : w.parse u = none ∨
      ∃ parsed, w.parse u = some parsed ∧
        ((parsed.scheme ≠ "http" ∧ parsed.scheme ≠ "https") ∨
         (strToLower (parsed.hostname.getD "") ≠ "127.0.0.1" ∧
          strToLower (parsed.hostname.getD "") ≠ "localhost") ∨
         parsed.port = none)) :
    resolve_one_url w ip u = some u := by
  rcases h with h | ⟨parsed, hparse, hcase⟩
  · simp [resolve_one_url, h]
  · unfold resolve_one_url
    rw [hparse]
    rcases hcase with hsch | hh | hp
    · simp [hsch]
    · by_cases hs : parsed.scheme ≠ "http" ∧ parsed.scheme ≠ "https"
      · simp [hs]
      · simp only [hs, if_false]
        rcases hport : parsed.port with _ | p
        · simp
        · have : ¬ ((strToLower (parsed.hostname.getD "") = "127.0.0.1" ∨
              strToLower (parsed.hostname.getD "") = "localhost") ∧ p ≠ 0) := by
            rintro ⟨hor, -⟩
            rcases hor with h1 | h1
            · exact hh.1 h1
            · exact hh.2 h1
          simp [this]
    · by_cases hs : parsed.scheme ≠ "http" ∧ parsed.scheme ≠ "https"
      · simp [hs]
      · simp [hs, hp]

/-- C6: for a declared http(s) URL with a loopback-literal host and an
explicit (nonzero) port, when the workspace maps to a WSL distro with a
known IP, `resolve_open_urls` produces exactly one of three outcomes:
if `ip:port` is TCP-reachable the URL's netloc is rewritten to
`ip:port` (user-info preserved); if unreachable and a non-empty host
listener that is not a recognized WSL bridge process owns the port, the
URL is suppressed from the result; otherwise the original URL is
returned unchanged. -/
theorem resolve_open_urls_loopback_cases (w : World) (mgr : ManagerState)
    (app : AppDefinition) (distro ip : String) (pre suf : List String)
    (u : String) (parsed : ParsedUrl) (p : Nat)
    (hdistro : get_wsl_distro_from_workspace app.workspace = some distro)
    (hip : (get_wsl_ip w.now w.bridgeQuery mgr.wsl_ip_cache distro).1 = some ip)
    (hsplit : app.openUrls = pre ++ u :: suf)
    (hparse : w.parse u = some parsed)
    (hscheme : parsed.scheme = "http" ∨ parsed.scheme = "https")
    (hhost : strToLower (parsed.hostname.getD "") = "127.0.0.1" ∨
      strToLower (parsed.hostname.getD "") = "localhost")
    (hport : parsed.port = some p) (hp0 : p ≠ 0) :
    (w.reach ip p = true →
      (resolve_open_urls w mgr app).1 =
        pre.filterMap (fun v => resolve_one_url w ip v) ++
          w.unparse { parsed with netloc := mk_netloc ip p parsed.username parsed.password } ::
          suf.filterMap (fun v => resolve_one_url w ip v)) ∧
    (∀ l, w.reach ip p = false → w.listener p = some l → l ≠ "" →
      is_probably_wsl_proxy (some l) = false →
      (resolve_open_urls w mgr app).1 =
        pre.filterMap (fun v => resolve_one_url w ip v) ++
          suf.filterMap (fun v => resolve_one_url w ip v)) ∧
    (w.reach ip p = false →
      (∀ l, w.listener p = some l → l = "" ∨ is_probably_wsl_proxy (some l) = true) →
      (resolve_open_urls w mgr app).1 =
        pre.filterMap (fun v => resolve_one_url w ip v) ++
          u :: suf.filterMap (fun v => resolve_one_url w ip v)) := by
  have hbase := resolve_open_urls_eq_filterMap w mgr app distro ip hdistro hip
  rw [hsplit] at hbase
  rw [List.filterMap_append] at hbase
  refine ⟨?_, ?_, ?_⟩
  · intro hreach
    rw [hbase, List.filterMap_cons,
      resolve_one_url_rewrites w ip u parsed p hparse hscheme hhost hport hp0 hreach]
  · intro l hreach hl hl0 hproxy
    rw [hbase, List.filterMap_cons,
      resolve_one_url_suppresses w ip u parsed p l hparse hscheme hhost hport hp0
        hreach hl hl0 hproxy]
  · intro hreach hl
    rw [hbase, List.filterMap_cons,
      resolve_one_url_fallback w ip u parsed p hparse hscheme hhost hport hp0 hreach hl]

/-- C7: `resolve_open_urls` passes URLs through unchanged in every
non-rewritable case: a URL that is not http(s), or whose host is not a
loopback literal, or that has no explicit port, or whose parsing
raises, appears in the result unmodified; and when the workspace does
not match a WSL UNC path or the distro IP cannot be obtained, the whole
declared list is returned unchanged. -/
theorem resolve_open_urls_pass_through (w : World) (mgr : ManagerState)
    (app : AppDefinition) :
    (get_wsl_distro_from_workspace app.workspace = none →
      (resolve_open_urls w mgr app).1 = app.openUrls) ∧
    (∀ distro, get_wsl_distro_from_workspace app.workspace = some distro →
      (get_wsl_ip w.now w.bridgeQuery mgr.wsl_ip_cache distro).1 = none →
      (resolve_open_urls w mgr app).1 = app.openUrls) ∧
    (∀ distro ip pre u suf,
      get_wsl_distro_from_workspace app.workspace = some distro →
      (get_wsl_ip w.now w.bridgeQuery mgr.wsl_ip_cache distro).1 = some ip →
      app.openUrls = pre ++ u :: suf →
      (w.parse u = none ∨
        ∃ parsed, w.parse u = some parsed ∧
          ((parsed.scheme ≠ "http" ∧ parsed.scheme ≠ "https") ∨
           (strToLower (parsed.hostname.getD "") ≠ "127.0.0.1" ∧
            strToLower (parsed.hostname.getD "") ≠ "localhost") ∨
           parsed.port = none)) →
      (resolve_open_urls w mgr app).1 =
        pre.filterMap (fun v => resolve_one_url w ip v) ++
          u :: suf.filterMap (fun v => resolve_one_url w ip v)) := by
  refine ⟨?_, ?_, ?_⟩
  · intro h
    simp [resolve_open_urls, h]
  · intro distro hdistro hip
    unfold resolve_open_urls
    rw [hdistro]
    rcases hr : get_wsl_ip w.now w.bridgeQuery mgr.wsl_ip_cache distro with ⟨ipOpt, rest⟩
    rw [hr] at hip
    simp at hip
    subst hip
    simp [hr]
  · intro distro ip pre u suf hdistro hip hsplit hcase
    have hbase := resolve_open_urls_eq_filterMap w mgr app distro ip hdistro hip
    rw [hsplit] at hbase
    rw [List.filterMap_append] at hbase
    rw [hbase, List.filterMap_cons, resolve_one_url_pass_through w ip u hcase]

/-! ### Lifecycle coordinator (`init_state`, `start_app`, `stop_app`,
`refresh_states`, `launch_app`) -/

/-- `AppManager.init_state` (app_manager.py lines 212-230). -/
def init_state (mgr : ManagerState) (app : AppDefinition) : ManagerState :=
  { mgr with
    app_states := alist.set mgr.app_states app.id
      { id := app.id, name := app.name, workspace := app.workspace,
        status := .STOPPED, ports := app.ports, open_urls := app.openUrls } }

/-- The `state = self.app_states.get(app.id); if not state: state =
self.init_state(app)` prologue shared by `start_app`, `launch_app` and
`refresh_states`. -/
def ensure_state (mgr : ManagerState) (app : AppDefinition) : ManagerState :=
  match alist.lookup mgr.app_states app.id with
  | some _ => mgr
  | none => init_state mgr app

/-- Mutating the (necessarily existing) state record in place, as the
Python code does through its `state` reference; a no-op when the record
is absent. -/
def upd_state (mgr : ManagerState) (app_id : String) (f : AppState → AppState) :
    ManagerState :=
  match alist.lookup mgr.app_states app_id with
  | some s => { mgr with app_states := alist.set mgr.app_states app_id (f s) }
  | none => mgr

/-- `state.status = st; state.message = msg` (error paths do not touch
`last_check`). -/
def set_status_msg (mgr : ManagerState) (app_id : String) (st : AppStatus)
    (msg : String) : ManagerState :=
  upd_state mgr app_id (fun s => { s with status := st, message := some msg })

/-- `state.status = st; state.message = msg; state.last_check =
datetime.now().isoformat()`. -/
def set_status_msg_ts (mgr : ManagerState) (app_id : String) (st : AppStatus)
    (msg : String) (ts : String) : ManagerState :=
  upd_state mgr app_id (fun s =>
    { s with status := st, message := some msg, last_check := some ts })

/-- The command construction for one start step (app_manager.py lines
412-433): `{workspace}` substitution in the working directory and the
command text, WSL path conversion for bash-on-Windows, and
`get_shell_command`; returns the spawned `full_cmd`. -/
def build_step (w : World) (workspace_path : String) (c : StartCommand) :
    String × List String :=
  let cwd :=
    match c.cwd with
    | some s => if s ≠ "" then s else "{workspace}"
    | none => "{workspace}"
  let cwd := cwd.replace "{workspace}" workspace_path
  let cwd := w.resolvePath cwd
  let cwd_for_command :=
    if c.shell = "bash" ∧ w.os = "windows" then convert_wsl_network_path_to_linux cwd
    else cwd
  let workspace_for_command :=
    if c.shell = "bash" ∧ w.os = "windows" then
      convert_wsl_network_path_to_linux workspace_path
    else workspace_path
  let command_str := c.cmd.replace "{workspace}" workspace_for_command
  get_shell_command w.os c.shell command_str (some cwd_for_command)

/-- The `for cmd in app.start` loop of `start_app` (app_manager.py
lines 410-471): spawn each step in order, record the handle, wait the
200 ms grace period and poll; an immediate exit or a spawn exception
aborts with status `Error`.  `i` is the step index (the spawn oracle is
consulted per index), `evts` accumulates the spawned `full_cmd`s. -/
def start_steps (w : World) (app : AppDefinition) (workspace_path : String) :
    List StartCommand → Nat → ManagerState → List (String × List String) →
    Bool × ManagerState × List (String × List String)
  | [], _, mgr, evts => (true, mgr, evts)
  | c :: rest, i, mgr, evts =>
    match w.spawn i with
    | .error e =>
      (false, set_status_msg mgr app.id .ERROR ("Failed to start command: " ++ e), evts)
    | .ok pid =>
      let evts := evts ++ [build_step w workspace_path c]
      let mgr := { mgr with
        processes := alist.set mgr.processes app.id
          ((alist.lookup mgr.processes app.id).getD [] ++ [pid]) }
      match w.poll pid with
      | some rc =>
        (false,
          set_status_msg mgr app.id .ERROR
            ("Process exited immediately with code " ++ toString rc),
          evts)
      | none => start_steps w app workspace_path rest (i + 1) mgr evts

/-- `AppManager.start_app` (app_manager.py lines 378-476).  Returns the
success flag, the new manager state, and the list of spawned commands
(`subprocess.Popen` invocations; empty = no process spawned, no shell
invoked).  The fire-and-forget `_poll_health` task scheduled on success
runs outside this call and is not part of its effect. -/
def start_app (w : World) (mgr : ManagerState) (app : AppDefinition) :
    Bool × ManagerState × List (String × List String) :=
  let mgr := ensure_state mgr app
  let mgr := set_status_msg_ts mgr app.id .STARTING "Starting application..." w.nowIso
  let workspace_path := w.resolvePath app.workspace
  if w.pathExists workspace_path = false then
    (false, set_status_msg mgr app.id .ERROR ("Workspace not found: " ++ workspace_path),
      [])
  else
    let mgr := { mgr with processes := alist.set mgr.processes app.id [] }
    start_steps w app workspace_path app.start 0 mgr []

/-- `AppManager.stop_app` (app_manager.py lines 564-608).  The psutil
process-tree termination is a pure external side effect (best-effort,
errors only printed); the supervisor-visible effect is dropping the
handle-set entry and forcing the state to `Stopped`. -/
def stop_app (w : World) (mgr : ManagerState) (app_id : String) :
    Bool × ManagerState :=
  match alist.lookup mgr.processes app_id with
  | none => (true, mgr)      -- `if app_id not in self.processes: return True`
  | some _ =>
    let mgr := { mgr with processes := alist.erase mgr.processes app_id }
    let mgr := set_status_msg_ts mgr app_id .STOPPED "Application stopped" w.nowIso
    (true, mgr)

/-- The reap block at the top of the `refresh_states` loop body
(app_manager.py lines 622-630): drop exited handles, and drop the whole
entry when a nonempty handle list has no survivor (`if procs:` skips
the reap for an empty stored list). -/
def reap_procs (w : World) (mgr : ManagerState) (app_id : String) : ManagerState :=
  let procs := (alist.lookup mgr.processes app_id).getD []
  if procs.isEmpty then mgr
  else
    let alive := procs.filter (fun p => (w.poll p).isNone)
    if alive.isEmpty then { mgr with processes := alist.erase mgr.processes app_id }
    else { mgr with processes := alist.set mgr.processes app_id alive }

/-- The status re-evaluation of the `refresh_states` loop body
(app_manager.py lines 632-657), run on the already-reaped manager:
skip while `Starting` with probes configured, else `Running` /
`Starting` / `Stopped` by health and tracked handles. -/
def refresh_decide (w : World) (mgr : ManagerState) (app : AppDefinition) :
    ManagerState :=
  match alist.lookup mgr.app_states app.id with
  | none => mgr              -- unreachable: ensure_state installed the record
  | some st =>
    if st.status = .STARTING ∧ (!app.health.isEmpty || !app.ports.isEmpty) = true then
      mgr                    -- `continue`: skip re-evaluation mid-start
    else if check_health w mgr app then
      set_status_msg_ts mgr app.id .RUNNING "Application is running" w.nowIso
    else if (match alist.lookup mgr.processes app.id with
             | some l => !l.isEmpty
             | none => false) then
      set_status_msg_ts mgr app.id .STARTING "Starting..." w.nowIso
    else
      set_status_msg_ts mgr app.id .STOPPED "Application is stopped" w.nowIso

/-- One iteration of the `refresh_states` loop (app_manager.py lines
616-657): ensure the state record, reap exited handles, re-evaluate. -/
def refresh_one (w : World) (mgr : ManagerState) (app : AppDefinition) : ManagerState :=
  refresh_decide w (reap_procs w (ensure_state mgr app) app.id) app

/-- `AppManager.refresh_states` (app_manager.py lines 610-657). -/
def refresh_states (w : World) (mgr : ManagerState) :
    List AppDefinition → ManagerState
  | [] => mgr
  | app :: rest => refresh_states w (refresh_one w mgr app) rest

/-- `max((h.timeout_sec for h in app.health), default=120)`. -/
def max_timeout (app : AppDefinition) : Nat :=
  match app.health.map (fun h => h.timeout_sec) with
  | [] => 120
  | t :: ts => ts.foldl max t

/-- The dictionary returned by `launch_app`. -/
structure LaunchResult where
  status : String
  message : String
  open_urls : List String
deriving DecidableEq, Repr

/-- `AppManager.launch_app` (app_manager.py lines 503-562).  The timed
`wait_for_health` polling loop is abstracted by the `waitHealthy`
oracle.  Returns the result dictionary, the new manager state, and the
spawned commands of the inner `start_app` call. -/
def launch_app (w : World) (mgr : ManagerState) (app : AppDefinition) :
    LaunchResult × ManagerState × List (String × List String) :=
  let mgr := ensure_state mgr app
  if check_health w mgr app then
    let mgr := set_status_msg_ts mgr app.id .RUNNING "Application is already running" w.nowIso
    let r := resolve_open_urls w mgr app
    ({ status := "success", message := "Application is already running",
       open_urls := r.1 }, r.2, [])
  else
    let res := start_app w mgr app
    if res.1 = false then
      ({ status := "error"
         message :=
           match alist.lookup res.2.1.app_states app.id with
           | some s =>
             match s.message with
             | some m => if m = "" then "Failed to start application" else m
             | none => "Failed to start application"
           | none => "Failed to start application"
         open_urls := [] }, res.2.1, res.2.2)
    else if w.waitHealthy then
      let mgr := set_status_msg_ts res.2.1 app.id .RUNNING
        "Application started successfully" w.nowIso
      let r := resolve_open_urls w mgr app
      ({ status := "success", message := "Application started successfully",
         open_urls := r.1 }, r.2, res.2.2)
    else
      let msg := "Health check timeout after " ++ toString (max_timeout app) ++ "s"
      let mgr := set_status_msg_ts res.2.1 app.id .ERROR msg w.nowIso
      ({ status := "error", message := msg, open_urls := [] }, mgr, res.2.2)

/-- `sub` occurs as a substring of `s` (for the spec's "message
containing ..." scenarios). -/
def strContainsSub (s sub : String) : Prop :=
  ∃ a b : List Char, s.data = a ++ sub.data ++ b

/-! ### Concrete worlds and specifications used by witnesses -/

/-- A concrete inert world: every external primitive fails or is
trivial.  Witness worlds override individual fields. -/
def W0 : World :=
  { poll := fun _ => none
    httpGet := fun _ => none
    reach4 := fun _ => false
    reach6 := fun _ => false
    resolvePath := fun s => s
    pathExists := fun _ => true
    spawn := fun _ => .ok 0
    os := "linux"
    parse := fun _ => none
    unparse := fun pr => pr.scheme ++ "://" ++ pr.netloc ++ pr.path
    reach := fun _ _ => false
    listener := fun _ => none
    bridgeQuery := fun _ => none
    now := 0
    nowIso := "2026-01-01T00:00:00"
    waitHealthy := false }

/-- Empty manager state. -/
def mgr0 : ManagerState := {}

/-- Parse result of `http://localhost:3000/app`. -/
def pu3000 : ParsedUrl :=
  { scheme := "http", netloc := "localhost:3000", path := "/app", params := ""
    query := "", fragment := "", hostname := some "localhost", port := some 3000
    username := none, password := none }

/-- Parse result of `ftp://files.local/x`. -/
def puftp : ParsedUrl :=
  { scheme := "ftp", netloc := "files.local", path := "/x", params := ""
    query := "", fragment := "", hostname := some "files.local", port := none
    username := none, password := none }

/-- World where the WSL bridge reports an IP, `ip:port` is reachable,
and `http://localhost:3000/app` parses to `pu3000`. -/
def W6 : World :=
  { W0 with
    parse := fun u => if u = "http://localhost:3000/app" then some pu3000 else none
    reach := fun _ _ => true
    bridgeQuery := fun _ => some "172.20.0.2" }

/-- Specification living in a WSL UNC workspace declaring one loopback
URL. -/
def app6 : AppDefinition :=
  { id := "web", name := "Web", workspace := "\\\\wsl.localhost\\Ubuntu\\proj"
    start := [], health := [], openUrls := ["http://localhost:3000/app"] }

/-- World for the pass-through witness: only the ftp URL parses. -/
def W7 : World :=
  { W6 with parse := fun u => if u = "ftp://files.local/x" then some puftp else none }

/-- Specification declaring one non-http URL. -/
def app7 : AppDefinition :=
  { app6 with id := "files", openUrls := ["ftp://files.local/x"] }

/-- Witness for C6: with the distro IP reachable, the loopback URL is
rewritten to `172.20.0.2:3000`. -/
theorem resolve_open_urls_loopback_cases_witness :
    (resolve_open_urls W6 mgr0 app6).1 = ["http://172.20.0.2:3000/app"] :=
  Eq.trans
    ((resolve_open_urls_loopback_cases W6 mgr0 app6 "Ubuntu" "172.20.0.2" [] []
        "http://localhost:3000/app" pu3000 3000
        (by decide) (by decide) rfl (by decide) (Or.inl rfl) (Or.inr (by decide))
        rfl (by decide)).1 rfl)
    (by decide)

/-- Witness for C7: a non-http URL passes through unchanged even though
the workspace maps to a distro with a known IP. -/
theorem resolve_open_urls_pass_through_witness :
    (resolve_open_urls W7 mgr0 app7).1 = ["ftp://files.local/x"] :=
  Eq.trans
    ((resolve_open_urls_pass_through W7 mgr0 app7).2.2 "Ubuntu" "172.20.0.2" []
      "ftp://files.local/x" []
      (by decide) (by decide) rfl (Or.inr ⟨puftp, by decide, Or.inl (by decide)⟩))
    (by decide)

/-! ### State-store lemmas -/

theorem ensure_state_processes (mgr : ManagerState) (app : AppDefinition) :
    (ensure_state mgr app).processes = mgr.processes := by
  unfold ensure_state
  cases alist.lookup mgr.app_states app.id <;> rfl

theorem ensure_state_lookup (mgr : ManagerState) (app : AppDefinition) :
    ∃ st, alist.lookup (ensure_state mgr app).app_states app.id = some st := by
  unfold ensure_state
  cases h : alist.lookup mgr.app_states app.id with
  | none =>
    exact ⟨{ id := app.id, name := app.name, workspace := app.workspace, status := .STOPPED, ports := app.ports, open_urls := app.openUrls },
      by simp [init_state, alist.lookup_set_self]⟩
  | some st => exact ⟨st, h⟩

theorem upd_state_processes (mgr : ManagerState) (app_id : String)
    (f : AppState → AppState) : (upd_state mgr app_id f).processes = mgr.processes := by
  unfold upd_state
  cases alist.lookup mgr.app_states app_id <;> rfl

theorem upd_state_lookup (mgr : ManagerState) (app_id : String)
    (f : AppState → AppState) (st : AppState)
    (h : alist.lookup mgr.app_states app_id = some st) :
    alist.lookup (upd_state mgr app_id f).app_states app_id = some (f st) := by
  simp [upd_state, h, alist.lookup_set_self]

theorem str_data_append (s t : String) : (s ++ t).data = s.data ++ t.data := by
  cases s; cases t; rfl

theorem str_append_ne_empty (s t : String) (h : s.data ≠ []) : s ++ t ≠ "" := by
  intro hc
  have hd : (s ++ t).data = ("" : String).data := by rw [hc]
  rw [str_data_append] at hd
  cases hs : s.data with
  | nil => exact h hs
  | cons a l => rw [hs] at hd; simp at hd

/-! ### C2: `stop_app` -/

/-- The state record of the C2 counterexample: status `Running`. -/
def stA : AppState := { id := "a", name := "A", workspace := "w", status := .RUNNING }

/-- Manager holding `stA` but no process-handle entry for `"a"` (the
handles were reaped by a refresh while the app kept running, or the
supervisor was restarted). -/
def mgrC2 : ManagerState := { app_states := [("a", stA)] }

/-- C2 counterexample: `stop_app` on an identifier with no tracked
process handles returns `True` but does NOT set the existing state
record to `Stopped` — the `if app_id not in self.processes: return
True` fast path skips the status update, so a `Running` status
survives the stop call. -/
theorem stop_app_no_entry_keeps_status :
    (stop_app W0 mgrC2 "a").1 = true ∧
    alist.lookup (stop_app W0 mgrC2 "a").2.app_states "a" = some stA ∧
    stA.status ≠ .STOPPED := by
  refine ⟨rfl, by decide, by decide⟩

theorem stop_app_noop_of_no_entry (w : World) (mgr : ManagerState) (app_id : String)
    (h : alist.lookup mgr.processes app_id = none) :
    stop_app w mgr app_id = (true, mgr) := by
  simp [stop_app, h]

/-- C2 (amended): `stop_app` always returns `True`; when no
process-handle entry exists it is a no-op (so a pre-existing
non-`Stopped` status survives); when an entry exists it removes the
entry and, if a state record exists, forces its status to `Stopped`;
and stopping twice in a row is idempotent (the second call is a no-op
returning `True`). -/
theorem stop_app_amended (w : World) (mgr : ManagerState) (app_id : String) :
    (stop_app w mgr app_id).1 = true ∧
    (alist.lookup mgr.processes app_id = none → (stop_app w mgr app_id).2 = mgr) ∧
    (∀ l, alist.lookup mgr.processes app_id = some l →
      alist.lookup (stop_app w mgr app_id).2.processes app_id = none ∧
      ∀ st, alist.lookup mgr.app_states app_id = some st →
        alist.lookup (stop_app w mgr app_id).2.app_states app_id =
          some { st with status := .STOPPED, message := some "Application stopped", last_check := some w.nowIso }) ∧
    stop_app w (stop_app w mgr app_id).2 app_id = (true, (stop_app w mgr app_id).2) := by
  refine ⟨?_, ?_, ?_, ?_⟩
  · unfold stop_app
    cases alist.lookup mgr.processes app_id <;> rfl
  · intro h
    simp [stop_app, h]
  · intro l hl
    constructor
    · have hp : (stop_app w mgr app_id).2.processes = alist.erase mgr.processes app_id := by
        simp [stop_app, hl, set_status_msg_ts, upd_state_processes]
      rw [hp, alist.lookup_erase_self]
    · intro st hst
      have hst1 : alist.lookup
          (ManagerState.mk mgr.app_states (alist.erase mgr.processes app_id)
            mgr.wsl_ip_cache).app_states app_id = some st := hst
      simp only [stop_app, hl]
      exact upd_state_lookup _ app_id _ st hst1
  · rcases h : alist.lookup mgr.processes app_id with _ | l
    · rw [stop_app_noop_of_no_entry w mgr app_id h]
      exact stop_app_noop_of_no_entry w mgr app_id h
    · have hp : (stop_app w mgr app_id).2.processes = alist.erase mgr.processes app_id := by
        simp [stop_app, h, set_status_msg_ts, upd_state_processes]
      have hn : alist.lookup (stop_app w mgr app_id).2.processes app_id = none := by
        rw [hp, alist.lookup_erase_self]
      exact stop_app_noop_of_no_entry w _ app_id hn

/-- The state record of the C2 witness. -/
def stB : AppState := { id := "b", name := "B", workspace := "w", status := .RUNNING }

/-- Manager tracking one live handle for `"b"`. -/
def mgrC2b : ManagerState := { app_states := [("b", stB)], processes := [("b", [5])] }

/-- Witness for the amended C2: stopping an app with a tracked handle
removes the entry and forces `Stopped`. -/
theorem stop_app_amended_witness :
    (stop_app W0 mgrC2b "b").1 = true ∧
    alist.lookup (stop_app W0 mgrC2b "b").2.processes "b" = none ∧
    alist.lookup (stop_app W0 mgrC2b "b").2.app_states "b" =
      some { stB with status := .STOPPED, message := some "Application stopped", last_check := some W0.nowIso } :=
  ⟨(stop_app_amended W0 mgrC2b "b").1,
   ((stop_app_amended W0 mgrC2b "b").2.2.1 [5] (by decide)).1,
   ((stop_app_amended W0 mgrC2b "b").2.2.1 [5] (by decide)).2 stB (by decide)⟩

/-! ### C5: missing workspace -/

theorem set_status_msg_processes (mgr : ManagerState) (app_id : String)
    (st : AppStatus) (msg : String) :
    (set_status_msg mgr app_id st msg).processes = mgr.processes :=
  upd_state_processes mgr app_id _

theorem set_status_msg_ts_processes (mgr : ManagerState) (app_id : String)
    (st : AppStatus) (msg ts : String) :
    (set_status_msg_ts mgr app_id st msg ts).processes = mgr.processes :=
  upd_state_processes mgr app_id _

theorem set_status_msg_lookup (mgr : ManagerState) (app_id : String)
    (st : AppStatus) (msg : String) (s : AppState)
    (h : alist.lookup mgr.app_states app_id = some s) :
    alist.lookup (set_status_msg mgr app_id st msg).app_states app_id =
      some { s with status := st, message := some msg } :=
  upd_state_lookup mgr app_id _ s h

theorem set_status_msg_ts_lookup (mgr : ManagerState) (app_id : String)
    (st : AppStatus) (msg ts : String) (s : AppState)
    (h : alist.lookup mgr.app_states app_id = some s) :
    alist.lookup (set_status_msg_ts mgr app_id st msg ts).app_states app_id =
      some { s with status := st, message := some msg, last_check := some ts } :=
  upd_state_lookup mgr app_id _ s h

theorem strContainsSub_of_eq_append (s sub : String) (a b : List Char)
    (h : s.data = a ++ sub.data ++ b) : strContainsSub s sub := ⟨a, b, h⟩

theorem contains_workspace_not_found (x : String) :
    strContainsSub ("Workspace not found: " ++ x) "Workspace not found" := by
  refine ⟨[], (": ").data ++ x.data, ?_⟩
  rw [str_data_append]
  have h : ("Workspace not found: ").data =
      ("Workspace not found").data ++ (": ").data := by decide
  rw [h]
  simp

theorem contains_exited_immediately (x : String) :
    strContainsSub ("Process exited immediately with code " ++ x)
      ("exited immediately with code " ++ x) := by
  refine ⟨("Process ").data, [], ?_⟩
  rw [str_data_append, str_data_append]
  have h : ("Process exited immediately with code ").data =
      ("Process ").data ++ ("exited immediately with code ").data := by decide
  rw [h]
  simp

theorem start_app_ws_eq (w : World) (mgr : ManagerState) (app : AppDefinition)
    (hws : w.pathExists (w.resolvePath app.workspace) = false) :
    start_app w mgr app =
      (false,
       set_status_msg
         (set_status_msg_ts (ensure_state mgr app) app.id .STARTING
           "Starting application..." w.nowIso)
         app.id .ERROR ("Workspace not found: " ++ w.resolvePath app.workspace),
       []) := by
  simp [start_app, hws]

theorem launch_app_error_parts (w : World) (mgr : ManagerState) (app : AppDefinition)
    (hch : check_health w (ensure_state mgr app) app = false)
    (hfail : (start_app w (ensure_state mgr app) app).1 = false) :
    (launch_app w mgr app).1.status = "error" ∧
    (launch_app w mgr app).2.1 = (start_app w (ensure_state mgr app) app).2.1 ∧
    (launch_app w mgr app).2.2 = (start_app w (ensure_state mgr app) app).2.2 ∧
    ∀ st m,
      alist.lookup (start_app w (ensure_state mgr app) app).2.1.app_states app.id = some st →
      st.message = some m → m ≠ "" → (launch_app w mgr app).1.message = m := by
  unfold launch_app
  simp only [hch, Bool.false_eq_true, if_false, hfail]
  refine ⟨rfl, rfl, rfl, ?_⟩
  intro st m hst hm hm'
  simp [hst, hm, hm']

/-- C5: for a specification whose resolved workspace path does not
exist, `start_app` fails immediately: it returns `False`, spawns no
process and invokes no shell (the spawn-event list is empty and the
process map is untouched), sets the state status to `Error` with a
message containing "Workspace not found", and `launch_app` (when the
initial quick health check does not short-circuit) returns a result
with status "error" whose message contains "Workspace not found". -/
theorem start_app_workspace_missing (w : World) (mgr : ManagerState)
    (app : AppDefinition)
    (hws : w.pathExists (w.resolvePath app.workspace) = false) :
    (start_app w mgr app).1 = false ∧
    (start_app w mgr app).2.2 = [] ∧
    (start_app w mgr app).2.1.processes = mgr.processes ∧
    (∃ st, alist.lookup (start_app w mgr app).2.1.app_states app.id = some st ∧
      st.status = .ERROR ∧
      st.message = some ("Workspace not found: " ++ w.resolvePath app.workspace)) ∧
    strContainsSub ("Workspace not found: " ++ w.resolvePath app.workspace)
      "Workspace not found" ∧
    (check_health w (ensure_state mgr app) app = false →
      (launch_app w mgr app).1.status = "error" ∧
      (launch_app w mgr app).1.message =
        "Workspace not found: " ++ w.resolvePath app.workspace ∧
      strContainsSub (launch_app w mgr app).1.message "Workspace not found") := by
  have hmsg_ne : ("Workspace not found: " ++ w.resolvePath app.workspace) ≠ "" :=
    str_append_ne_empty _ _ (by decide)
  have main : ∀ m : ManagerState,
      (start_app w m app).1 = false ∧
      (start_app w m app).2.2 = [] ∧
      (start_app w m app).2.1.processes = m.processes ∧
      ∃ st, alist.lookup (start_app w m app).2.1.app_states app.id = some st ∧
        st.status = .ERROR ∧
        st.message = some ("Workspace not found: " ++ w.resolvePath app.workspace) := by
    intro m
    rw [start_app_ws_eq w m app hws]
    obtain ⟨st0, hst0⟩ := ensure_state_lookup m app
    refine ⟨rfl, rfl, ?_, ?_⟩
    · show (set_status_msg _ _ _ _).processes = m.processes
      rw [set_status_msg_processes, set_status_msg_ts_processes, ensure_state_processes]
    · refine ⟨_, set_status_msg_lookup _ app.id .ERROR _ _
        (set_status_msg_ts_lookup _ app.id .STARTING _ _ _ hst0), rfl, rfl⟩
  obtain ⟨h1, h2, h3, h4⟩ := main mgr
  refine ⟨h1, h2, h3, h4, contains_workspace_not_found _, ?_⟩
  intro hch
  obtain ⟨h1', h2', h3', st', hst', hstat', hmsg'⟩ := main (ensure_state mgr app)
  obtain ⟨hs, hmgr, hevts, hmsgf⟩ := launch_app_error_parts w mgr app hch h1'
  have hm := hmsgf _ _ hst' hmsg' hmsg_ne
  exact ⟨hs, hm, hm ▸ contains_workspace_not_found _⟩

/-- World whose filesystem has no paths at all. -/
def WC5 : World := { W0 with pathExists := fun _ => false }

/-- Specification with a nonexistent workspace. -/
def appC5 : AppDefinition :=
  { id := "c5", name := "C5", workspace := "/nope", start := [{ cmd := "run" }]
    health := [], openUrls := [] }

/-- Witness for C5. -/
theorem start_app_workspace_missing_witness :
    (start_app WC5 mgr0 appC5).1 = false ∧
    (start_app WC5 mgr0 appC5).2.2 = [] ∧
    (launch_app WC5 mgr0 appC5).1.status = "error" ∧
    strContainsSub (launch_app WC5 mgr0 appC5).1.message "Workspace not found" := by
  have h := start_app_workspace_missing WC5 mgr0 appC5 rfl
  exact ⟨h.1, h.2.1, (h.2.2.2.2.2 (by decide)).1, (h.2.2.2.2.2 (by decide)).2.2⟩

/-! ### C4: sequential fail-fast start -/

theorem start_steps_exit (w : World) (app : AppDefinition) (wp : String)
    (pre suf : List StartCommand) (c : StartCommand) (i : Nat) (mgr : ManagerState)
    (evts : List (String × List String)) (pid : Nat) (rc : Int)
    (hok : ∀ j, j < pre.length → ∃ q, w.spawn (i + j) = .ok q ∧ w.poll q = none)
    (hspawn : w.spawn (i + pre.length) = .ok pid)
    (hexit : w.poll pid = some rc) :
    (start_steps w app wp (pre ++ c :: suf) i mgr evts).1 = false ∧
    (start_steps w app wp (pre ++ c :: suf) i mgr evts).2.2.length =
      evts.length + pre.length + 1 ∧
    ∀ st, alist.lookup mgr.app_states app.id = some st →
      alist.lookup
          (start_steps w app wp (pre ++ c :: suf) i mgr evts).2.1.app_states app.id =
        some { st with status := .ERROR, message := some ("Process exited immediately with code " ++ toString rc) } := by
  induction pre generalizing i mgr evts with
  | nil =>
    have hsp : w.spawn i = .ok pid := by simpa using hspawn
    simp only [List.nil_append, start_steps, hsp, hexit]
    refine ⟨by trivial, by simp, ?_⟩
    intro st hst
    exact set_status_msg_lookup _ app.id .ERROR _ st hst
  | cons c0 pre' ih =>
    obtain ⟨q, hq, hqa⟩ := hok 0 (by simp)
    have hq' : w.spawn i = .ok q := by simpa using hq
    have hok' : ∀ j, j < pre'.length →
        ∃ q, w.spawn (i + 1 + j) = .ok q ∧ w.poll q = none := by
      intro j hj
      obtain ⟨q', hq1, hq2⟩ := hok (j + 1) (by simpa using Nat.succ_lt_succ hj)
      exact ⟨q', by rw [show i + 1 + j = i + (j + 1) by omega]; exact hq1, hq2⟩
    have hspawn' : w.spawn (i + 1 + pre'.length) = .ok pid := by
      rw [show i + 1 + pre'.length = i + (c0 :: pre').length by simp; omega]
      exact hspawn
    simp only [List.cons_append, start_steps, hq', hqa, List.append_eq]
    set mgr' : ManagerState := { mgr with processes := alist.set mgr.processes app.id ((alist.lookup mgr.processes app.id).getD [] ++ [q]) } with hmgr'
    have hres := ih (i + 1) mgr' (evts ++ [build_step w wp c0]) hok' hspawn'
    refine ⟨hres.1, ?_, ?_⟩
    · rw [hres.2.1]
      simp
      omega
    · intro st hst
      exact hres.2.2 st hst

theorem start_app_exit_aux (w : World) (mgr : ManagerState) (app : AppDefinition)
    (pre suf : List StartCommand) (c : StartCommand) (pid : Nat) (rc : Int)
    (hsplit : app.start = pre ++ c :: suf)
    (hok : ∀ j, j < pre.length → ∃ q, w.spawn j = .ok q ∧ w.poll q = none)
    (hspawn : w.spawn pre.length = .ok pid)
    (hexit : w.poll pid = some rc)
    (hws : w.pathExists (w.resolvePath app.workspace) = true) :
    (start_app w mgr app).1 = false ∧
    (start_app w mgr app).2.2.length = pre.length + 1 ∧
    ∃ st, alist.lookup (start_app w mgr app).2.1.app_states app.id = some st ∧
      st.status = .ERROR ∧
      st.message = some ("Process exited immediately with code " ++ toString rc) := by
  obtain ⟨st0, hst0⟩ := ensure_state_lookup mgr app
  have hok0 : ∀ j, j < pre.length → ∃ q, w.spawn (0 + j) = .ok q ∧ w.poll q = none := by
    intro j hj
    simpa using hok j hj
  have hspawn0 : w.spawn (0 + pre.length) = .ok pid := by simpa using hspawn
  unfold start_app
  simp only [hws, Bool.true_eq_false, if_false, hsplit]
  set mgrS := set_status_msg_ts (ensure_state mgr app) app.id .STARTING
    "Starting application..." w.nowIso with hmgrS
  set mgr3 : ManagerState :=
    { mgrS with processes := alist.set mgrS.processes app.id [] } with hmgr3
  have hst3 : alist.lookup mgr3.app_states app.id =
      some { st0 with status := .STARTING, message := some "Starting application...", last_check := some w.nowIso } := by
    show alist.lookup mgrS.app_states app.id = _
    exact set_status_msg_ts_lookup _ app.id .STARTING _ _ _ hst0
  obtain ⟨e1, e2, e3⟩ :=
    start_steps_exit w app (w.resolvePath app.workspace) pre suf c 0 mgr3 [] pid rc
      hok0 hspawn0 hexit
  refine ⟨e1, by simpa using e2, ?_⟩
  exact ⟨_, e3 _ hst3, rfl, rfl⟩

/-- C4: start is sequential and fail-fast on immediate exit: when every
step before index `k` spawns and stays alive through its grace period,
and step `k` spawns but has exited when polled after the 200 ms grace
period, `start_app` returns `False`, exactly `k + 1` steps were ever
spawned (the remaining steps never execute), the state status is
`Error` with message "Process exited immediately with code rc"; and
(when the quick health check does not short-circuit) `launch_app`
returns status "error" with state status `Error` and a message
containing "exited immediately with code rc". -/
theorem start_fail_fast (w : World) (mgr : ManagerState) (app : AppDefinition)
    (pre suf : List StartCommand) (c : StartCommand) (pid : Nat) (rc : Int)
    (hsplit : app.start = pre ++ c :: suf)
    (hok : ∀ j, j < pre.length → ∃ q, w.spawn j = .ok q ∧ w.poll q = none)
    (hspawn : w.spawn pre.length = .ok pid)
    (hexit : w.poll pid = some rc)
    (hws : w.pathExists (w.resolvePath app.workspace) = true) :
    (start_app w mgr app).1 = false ∧
    (start_app w mgr app).2.2.length = pre.length + 1 ∧
    (∃ st, alist.lookup (start_app w mgr app).2.1.app_states app.id = some st ∧
      st.status = .ERROR ∧
      st.message = some ("Process exited immediately with code " ++ toString rc)) ∧
    (check_health w (ensure_state mgr app) app = false →
      (launch_app w mgr app).1.status = "error" ∧
      (launch_app w mgr app).1.message =
        "Process exited immediately with code " ++ toString rc ∧
      strContainsSub (launch_app w mgr app).1.message
        ("exited immediately with code " ++ toString rc) ∧
      ∃ st, alist.lookup (launch_app w mgr app).2.1.app_states app.id = some st ∧
        st.status = .ERROR) := by
  obtain ⟨h1, h2, h3⟩ :=
    start_app_exit_aux w mgr app pre suf c pid rc hsplit hok hspawn hexit hws
  refine ⟨h1, h2, h3, ?_⟩
  intro hch
  obtain ⟨h1', h2', st', hst', hstat', hmsg'⟩ :=
    start_app_exit_aux w (ensure_state mgr app) app pre suf c pid rc hsplit hok
      hspawn hexit hws
  obtain ⟨hs, hmgr, hevts, hmsgf⟩ := launch_app_error_parts w mgr app hch h1'
  have hne : ("Process exited immediately with code " ++ toString rc) ≠ "" :=
    str_append_ne_empty _ _ (by decide)
  have hm := hmsgf _ _ hst' hmsg' hne
  refine ⟨hs, hm, hm ▸ contains_exited_immediately _, ?_⟩
  exact ⟨st', hmgr ▸ hst', hstat'⟩

/-- World whose first start step spawns PID 9 which immediately exits
with code 1. -/
def WC4 : World := { W0 with spawn := fun _ => .ok 9, poll := fun _ => some 1 }

/-- Specification with a start command that exits immediately. -/
def appC4 : AppDefinition :=
  { id := "c4", name := "C4", workspace := "/w", start := [{ cmd := "crash" }]
    health := [], openUrls := [] }

/-- Witness for C4: the immediately-exiting command produces `status :
error` with a message containing "exited immediately with code 1". -/
theorem start_fail_fast_witness :
    (start_app WC4 mgr0 appC4).1 = false ∧
    (start_app WC4 mgr0 appC4).2.2.length = 1 ∧
    (launch_app WC4 mgr0 appC4).1.status = "error" ∧
    strContainsSub (launch_app WC4 mgr0 appC4).1.message
      "exited immediately with code 1" := by
  have h := start_fail_fast WC4 mgr0 appC4 [] [] { cmd := "crash" } 9 1 rfl
    (fun j hj => absurd hj (Nat.not_lt_zero j)) rfl rfl rfl
  have h2 := h.2.2.2 (by decide)
  refine ⟨h.1, h.2.1, h2.1, ?_⟩
  have he : ("exited immediately with code " ++ toString (1 : Int)) =
      "exited immediately with code 1" := by decide
  exact he ▸ h2.2.2.1

/-! ### C3: reconciliation -/

theorem reap_procs_app_states (w : World) (mgr : ManagerState) (app_id : String) :
    (reap_procs w mgr app_id).app_states = mgr.app_states := by
  unfold reap_procs
  by_cases h : ((alist.lookup mgr.processes app_id).getD []).isEmpty
  · simp [h]
  · simp only [h, Bool.false_eq_true, if_false]
    by_cases h2 :
        (((alist.lookup mgr.processes app_id).getD []).filter
          (fun p => (w.poll p).isNone)).isEmpty
    · simp [h2]
    · simp [h2]

theorem reap_procs_lookup (w : World) (mgr : ManagerState) (app_id : String) :
    alist.lookup (reap_procs w mgr app_id).processes app_id =
      match alist.lookup mgr.processes app_id with
      | none => none
      | some l =>
        if l.isEmpty then some l
        else if (l.filter (fun p => (w.poll p).isNone)).isEmpty then none
        else some (l.filter (fun p => (w.poll p).isNone)) := by
  unfold reap_procs
  cases h : alist.lookup mgr.processes app_id with
  | none => simp [h]
  | some l =>
    by_cases he : l.isEmpty
    · simp [h, he]
    · by_cases ha : (l.filter (fun p => (w.poll p).isNone)).isEmpty
      · simp [h, he, ha, alist.lookup_erase_self]
      · simp [h, he, ha, alist.lookup_set_self]

theorem refresh_decide_processes (w : World) (mgr : ManagerState)
    (app : AppDefinition) :
    (refresh_decide w mgr app).processes = mgr.processes := by
  unfold refresh_decide
  cases h : alist.lookup mgr.app_states app.id with
  | none => rfl
  | some st =>
    by_cases h1 : st.status = .STARTING ∧ (!app.health.isEmpty || !app.ports.isEmpty) = true
    · simp [h1]
    · simp only [h1, if_false]
      by_cases h2 : check_health w mgr app
      · simp [h2, set_status_msg_ts_processes]
      · simp only [h2, Bool.false_eq_true, if_false]
        by_cases h3 : (match alist.lookup mgr.processes app.id with
          | some l => !l.isEmpty
          | none => false) = true
        · simp [h3, set_status_msg_ts_processes]
        · simp [h3, set_status_msg_ts_processes]

theorem refresh_one_processes (w : World) (mgr : ManagerState) (app : AppDefinition) :
    (refresh_one w mgr app).processes =
      (reap_procs w (ensure_state mgr app) app.id).processes :=
  refresh_decide_processes w _ app

theorem has_checks_bool_iff (app : AppDefinition) :
    ((!app.health.isEmpty || !app.ports.isEmpty) = true) ↔
      (app.health ≠ [] ∨ app.ports ≠ []) := by
  cases app.health <;> cases app.ports <;> simp

theorem procs_nonempty_iff (mgr : ManagerState) (app_id : String) :
    ((match alist.lookup mgr.processes app_id with
      | some l => !l.isEmpty
      | none => false) = true) ↔
      (∃ l, alist.lookup mgr.processes app_id = some l ∧ l ≠ []) := by
  cases h : alist.lookup mgr.processes app_id with
  | none => simp
  | some l => cases l <;> simp

/-- Empty-handle-entry specification for the C3 counterexample. -/
def appC3 : AppDefinition :=
  { id := "c3", name := "C3", workspace := "w", start := [], health := []
    openUrls := [] }

/-- Manager with a stored empty handle list for `"c3"` (reachable in
production: `start_app` stores `[]` before its loop and leaves it when
the first spawn raises). -/
def mgrC3 : ManagerState :=
  { app_states := [("c3", { id := "c3", name := "C3", workspace := "w" })]
    processes := [("c3", [])] }

/-- C3 counterexample: one `refresh_states` pass over an entry holding
an empty handle list keeps the entry (`if procs:` skips the reap), even
though zero handles remain alive — the claim says the entry is dropped
when none remain alive. -/
theorem refresh_keeps_empty_entry :
    alist.lookup (refresh_states W0 mgrC3 [appC3]).processes "c3" = some [] := by
  decide

/-- C3 (amended): one `refresh_states` call folds the per-spec step over
the list; per specification it first reaps exited handles — dropping
the entry when a NONEMPTY handle list has no survivor, while an empty
stored list is left in place (and counts as "no handle tracked" below)
— then, if the current status is `Starting` and HTTP probes or ports
are configured, leaves the state records unchanged; otherwise it sets
status `Running` when the health check passes, `Starting` when it fails
but a nonempty handle list remains tracked, and `Stopped` otherwise. -/
theorem refresh_states_behavior (w : World) (mgr : ManagerState) (app : AppDefinition)
    (rest : List AppDefinition) :
    refresh_states w mgr (app :: rest) =
      refresh_states w (refresh_one w mgr app) rest ∧
    (alist.lookup (refresh_one w mgr app).processes app.id =
      match alist.lookup mgr.processes app.id with
      | none => none
      | some l =>
        if l.isEmpty then some l
        else if (l.filter (fun p => (w.poll p).isNone)).isEmpty then none
        else some (l.filter (fun p => (w.poll p).isNone))) ∧
    (∀ st,
      alist.lookup (reap_procs w (ensure_state mgr app) app.id).app_states app.id = some st →
      ((st.status = .STARTING ∧ (app.health ≠ [] ∨ app.ports ≠ []) →
        refresh_one w mgr app = reap_procs w (ensure_state mgr app) app.id) ∧
       (¬(st.status = .STARTING ∧ (app.health ≠ [] ∨ app.ports ≠ [])) →
        ∃ st', alist.lookup (refresh_one w mgr app).app_states app.id = some st' ∧
          (check_health w (reap_procs w (ensure_state mgr app) app.id) app = true →
            st'.status = .RUNNING) ∧
          (check_health w (reap_procs w (ensure_state mgr app) app.id) app = false →
            ((∃ l, alist.lookup (reap_procs w (ensure_state mgr app) app.id).processes app.id = some l ∧ l ≠ []) →
              st'.status = .STARTING) ∧
            (¬(∃ l, alist.lookup (reap_procs w (ensure_state mgr app) app.id).processes app.id = some l ∧ l ≠ []) →
              st'.status = .STOPPED))))) := by
  refine ⟨rfl, ?_, ?_⟩
  · rw [refresh_one_processes, reap_procs_lookup, ensure_state_processes]
  · intro st hst
    set M := reap_procs w (ensure_state mgr app) app.id with hM
    have hro : refresh_one w mgr app = refresh_decide w M app := rfl
    constructor
    · intro hskip
      rw [hro]
      unfold refresh_decide
      simp only [hst]
      rw [if_pos ⟨hskip.1, (has_checks_bool_iff app).mpr hskip.2⟩]
    · intro hns
      have hns' : ¬(st.status = .STARTING ∧ (!app.health.isEmpty || !app.ports.isEmpty) = true) := by
        intro hc
        exact hns ⟨hc.1, (has_checks_bool_iff app).mp hc.2⟩
      rw [hro]
      unfold refresh_decide
      simp only [hst]
      rw [if_neg hns']
      by_cases h2 : check_health w M app
      · rw [if_pos h2]
        refine ⟨_, set_status_msg_ts_lookup M app.id .RUNNING _ _ st hst, ?_, ?_⟩
        · intro _; rfl
        · intro hc; rw [h2] at hc; cases hc
      · rw [if_neg h2]
        have h2' : check_health w M app = false := by
          cases hch : check_health w M app
          · rfl
          · exact absurd hch h2
        by_cases h3 : (match alist.lookup M.processes app.id with
          | some l => !l.isEmpty
          | none => false) = true
        · rw [if_pos h3]
          refine ⟨_, set_status_msg_ts_lookup M app.id .STARTING _ _ st hst, ?_, ?_⟩
          · intro hc; rw [hc] at h2'; cases h2'
          · intro _
            refine ⟨fun _ => rfl, fun hne => ?_⟩
            exact absurd ((procs_nonempty_iff M app.id).mp h3) hne
        · rw [if_neg h3]
          refine ⟨_, set_status_msg_ts_lookup M app.id .STOPPED _ _ st hst, ?_, ?_⟩
          · intro hc; rw [hc] at h2'; cases h2'
          · intro _
            refine ⟨fun hex => ?_, fun _ => rfl⟩
            exact absurd ((procs_nonempty_iff M app.id).mpr hex) h3

/-- The `Starting` state used by the C3 witness. -/
def stR3 : AppState := { id := "r3", name := "R3", workspace := "w", status := .STARTING }

/-- Manager mid-start for `"r3"`. -/
def mgrR3 : ManagerState := { app_states := [("r3", stR3)] }

/-- Specification with an HTTP probe configured (so the `Starting`
state is skipped by reconciliation). -/
def appR3 : AppDefinition :=
  { id := "r3", name := "R3", workspace := "w", start := []
    health := [{ url := "http://localhost:1/health" }], openUrls := [] }

/-- Witness for the amended C3: a `Starting` state with probes
configured is left unchanged by one reconciliation pass. -/
theorem refresh_states_behavior_witness :
    refresh_states W0 mgrR3 [appR3] =
      refresh_states W0 (refresh_one W0 mgrR3 appR3) [] ∧
    refresh_one W0 mgrR3 appR3 = reap_procs W0 (ensure_state mgrR3 appR3) "r3" :=
  ⟨(refresh_states_behavior W0 mgrR3 appR3 []).1,
   ((refresh_states_behavior W0 mgrR3 appR3 []).2.2 stR3 (by decide)).1
     ⟨by decide, Or.inl (by decide)⟩⟩

/-! ### C9: process-handle-set invariant -/

theorem start_steps_entry_isSome (w : World) (app : AppDefinition) (wp : String)
    (cmds : List StartCommand) (i : Nat) (mgr : ManagerState)
    (evts : List (String × List String))
    (h : (alist.lookup mgr.processes app.id).isSome = true) :
    (alist.lookup (start_steps w app wp cmds i mgr evts).2.1.processes app.id).isSome
      = true := by
  induction cmds generalizing i mgr evts with
  | nil => simpa using h
  | cons c rest ih =>
    simp only [start_steps]
    cases hs : w.spawn i with
    | error e =>
      simpa [set_status_msg, upd_state_processes] using h
    | ok pid =>
      dsimp only
      cases hp : w.poll pid with
      | some rc =>
        simp only [hp]
        simp [set_status_msg, upd_state_processes, alist.lookup_set_self]
      | none =>
        simp only [hp]
        apply ih
        simp [alist.lookup_set_self]

/-- Specification with an EMPTY start list for the C9 counterexample. -/
def appC9 : AppDefinition :=
  { id := "c9", name := "C9", workspace := "w", start := [], health := []
    openUrls := [] }

/-- C9 counterexample: `start_app` on a specification with no start
steps (same shape as a first-step spawn failure) creates a
process-handle entry — `self.processes[app.id] = []` runs before the
loop — although zero start steps were executed (no spawn event), so
"entry exists only if at least one start step was executed" is false. -/
theorem proc_entry_without_steps :
    (start_app W0 mgr0 appC9).2.2 = [] ∧
    alist.lookup (start_app W0 mgr0 appC9).2.1.processes "c9" = some [] := by
  decide

/-- C9 (amended): a process-handle entry exists iff the most recent
start attempt passed the workspace check and the entry has not since
been removed by an explicit stop or by a refresh reaping a nonempty
handle list with no survivor.  Concretely: a failed workspace check
leaves the map untouched; a passed workspace check guarantees an entry
(possibly empty, even with zero steps executed); stop removes the
entry; refresh drops the entry exactly when the tracked list was
nonempty and every handle has exited, and otherwise keeps the live
handles. -/
theorem process_entry_lifecycle (w : World) (mgr : ManagerState) (app : AppDefinition)
    (app_id : String) :
    (w.pathExists (w.resolvePath app.workspace) = false →
      (start_app w mgr app).2.1.processes = mgr.processes) ∧
    (w.pathExists (w.resolvePath app.workspace) = true →
      ∃ l, alist.lookup (start_app w mgr app).2.1.processes app.id = some l) ∧
    alist.lookup (stop_app w mgr app_id).2.processes app_id = none ∧
    (∀ l, alist.lookup mgr.processes app.id = some l → l ≠ [] →
      ((l.filter (fun p => (w.poll p).isNone) = [] →
        alist.lookup (refresh_one w mgr app).processes app.id = none) ∧
       (l.filter (fun p => (w.poll p).isNone) ≠ [] →
        alist.lookup (refresh_one w mgr app).processes app.id =
          some (l.filter (fun p => (w.poll p).isNone))))) := by
  refine ⟨?_, ?_, ?_, ?_⟩
  · intro hws
    rw [start_app_ws_eq w mgr app hws]
    show (set_status_msg _ _ _ _).processes = mgr.processes
    rw [set_status_msg_processes, set_status_msg_ts_processes, ensure_state_processes]
  · intro hws
    unfold start_app
    simp only [hws, Bool.true_eq_false, if_false]
    have hset : (alist.lookup
        (alist.set (set_status_msg_ts (ensure_state mgr app) app.id .STARTING
          "Starting application..." w.nowIso).processes app.id
          ([] : List Nat)) app.id).isSome = true := by
      simp [alist.lookup_set_self]
    have := start_steps_entry_isSome w app (w.resolvePath app.workspace) app.start 0
      { set_status_msg_ts (ensure_state mgr app) app.id .STARTING
          "Starting application..." w.nowIso with
        processes := alist.set (set_status_msg_ts (ensure_state mgr app) app.id .STARTING
          "Starting application..." w.nowIso).processes app.id [] } [] hset
    exact Option.isSome_iff_exists.mp this
  · cases h : alist.lookup mgr.processes app_id with
    | none =>
      rw [stop_app_noop_of_no_entry w mgr app_id h]
      exact h
    | some l =>
      have hp : (stop_app w mgr app_id).2.processes = alist.erase mgr.processes app_id := by
        simp [stop_app, h, set_status_msg_ts, upd_state_processes]
      rw [hp, alist.lookup_erase_self]
  · intro l hl hlne
    have hne : l.isEmpty = false := by
      cases l
      · exact absurd rfl hlne
      · rfl
    have hbase : alist.lookup (refresh_one w mgr app).processes app.id =
        (if (l.filter (fun p => (w.poll p).isNone)).isEmpty then none
         else some (l.filter (fun p => (w.poll p).isNone))) := by
      rw [refresh_one_processes, reap_procs_lookup, ensure_state_processes]
      simp [hl, hne]
    constructor
    · intro hf
      rw [hbase, hf]
      simp
    · intro hf
      have hfe : (l.filter (fun p => (w.poll p).isNone)).isEmpty = false := by
        cases hc : l.filter (fun p => (w.poll p).isNone)
        · exact absurd hc hf
        · rfl
      rw [hbase, hfe]
      simp

/-- Specification with one long-running start step. -/
def appW9 : AppDefinition :=
  { id := "x", name := "X", workspace := "w", start := [{ cmd := "sleep 100" }]
    health := [], openUrls := [] }

/-- Manager tracking two live handles for `"x"`. -/
def mgrW9 : ManagerState := { processes := [("x", [1, 2])] }

/-- Witness for the amended C9. -/
theorem process_entry_lifecycle_witness :
    (∃ l, alist.lookup (start_app W0 mgr0 appW9).2.1.processes "x" = some l) ∧
    alist.lookup (stop_app W0 mgrW9 "x").2.processes "x" = none ∧
    alist.lookup (refresh_one W0 mgrW9 appW9).processes "x" =
      some ([1, 2].filter (fun p => (W0.poll p).isNone)) :=
  ⟨(process_entry_lifecycle W0 mgr0 appW9 "x").2.1 rfl,
   (process_entry_lifecycle W0 mgrW9 appW9 "x").2.2.1,
   ((process_entry_lifecycle W0 mgrW9 appW9 "x").2.2.2 [1, 2] (by decide)
     (by decide)).2 (by decide)⟩

end Launcher
